import Mathlib

/-!
Verification of the Prism hybrid-retrieval / ReAct-agent backend.

This development shallowly embeds the Python sources of the repository
(`backend/app/services/rerank_service.py`, `backend/app/services/retrieval_service.py`,
`backend/app/agent/react_agent.py`, `backend/app/agent/tools/finish.py`) as Lean
definitions and proves the specified properties about them.

Modelling conventions:
- Python floats are modelled as rationals (`ℚ`); the arithmetic in the embedded
  code (means, fixed multiplicative boosts, divisions by non-zero counts) is exact.
- Python dicts that are used as ordered string-keyed maps are modelled as
  association lists in insertion order.
- Python `list.sort` / `sorted` (stable ascending by key) is modelled by a stable
  insertion sort `pySort`.
- External collaborators (the embedding API, the Chroma vector store, the LLM
  clients, `json.dumps`/`json.loads`) are abstract function parameters.
- Repository modules that are imported by the embedded files but are not present
  in the source tree (the tool registry, the cache service, the intent router,
  the agent type declarations) are modelled from the specification; each such
  definition carries a doc comment starting with `Modelled from the spec:`.
-/

namespace Prism

/-- A single-quote character as a string (used in several literal messages of the
source, e.g. the tool-not-found observation). -/
def sq : String := String.singleton (Char.ofNat 39)

/-- Python `sub in s` substring test (for non-empty `sub`): `s.splitOn sub` has
more than one piece exactly when `sub` occurs in `s`. -/
def containsSub (s sub : String) : Bool := (s.splitOn sub).length > 1

/-- Python `str.split()` with no arguments: split on runs of whitespace and drop
empty pieces. -/
def splitWords (s : String) : List String := (s.split Char.isWhitespace).filter (· ≠ "")

/-- Insert `x` into `l`, moving it past `y` only when `prec y x` holds; together
with `pySort` this gives a stable sort. -/
def insertStable {α : Type} (prec : α → α → Bool) (x : α) : List α → List α
  | [] => [x]
  | y :: ys => if prec y x then y :: insertStable prec x ys else x :: y :: ys

/-- Stable sort: `pySort prec l` sorts `l`, keeping the original relative order of
elements that are not strictly ordered by `prec`.  With `prec a b := key a < key b`
this models Python's stable ascending `list.sort(key=...)`; with
`prec a b := key a > key b` it models `sort(key=..., reverse=True)`. -/
def pySort {α : Type} (prec : α → α → Bool) (l : List α) : List α :=
  l.foldr (insertStable prec) []

/-! ## Rerank service (`backend/app/services/rerank_service.py`) -/

/-- A rerank result (`RerankResult` in `rerank_service.py`): an index into the
input document list together with a relevance score. -/
structure RerankResult where
  index : ℕ
  relevance_score : ℚ
deriving Repr, DecidableEq

/-- `RuleBasedReranker.CORE_SECTIONS` from `rerank_service.py`. -/
def CORE_SECTIONS : List String := ["Abstract", "Introduction", "Conclusion", "摘要", "引言", "结论"]

/-- `RuleBasedReranker._rerank_impl`: lexical-overlap scoring with a core-section
bonus, sorted by score descending (stable) and truncated to `top_n`. -/
def RuleBasedReranker_rerank_impl (query : String) (documents : List String) (top_n : ℕ) :
    List RerankResult :=
  let query_lower := query.toLower
  let query_terms := (splitWords query_lower).dedup
  let results := documents.enum.map (fun p =>
    let doc_lower := p.2.toLower
    let doc_terms := (splitWords doc_lower).dedup
    let overlap := (query_terms.filter (fun t => doc_terms.contains t)).length
    let score : ℚ := (overlap : ℚ) / (max query_terms.length 1 : ℚ)
    let score := if CORE_SECTIONS.any (fun s => containsSub doc_lower s.toLower)
      then score + 1/10 else score
    RerankResult.mk p.1 score)
  (pySort (fun a b => a.relevance_score > b.relevance_score) results).take top_n

/-- The type of a reranker backend's `_rerank_impl`: it may raise (model: return
`Except.error`) because the primary backends perform network calls. -/
def RerankFn : Type := String → List String → ℕ → Except String (List RerankResult)

/-- The rule-based reranker as a `RerankFn`: it performs no external calls and
never raises. -/
def ruleBasedRerankFn : RerankFn :=
  fun q docs n => .ok (RuleBasedReranker_rerank_impl q docs n)

/-- `FallbackReranker._rerank_impl`: try the primary backend; on any exception,
log and return the fallback backend's result instead. -/
def FallbackReranker_rerank_impl (primary fallback : RerankFn) (query : String)
    (documents : List String) (top_n : ℕ) : Except String (List RerankResult) :=
  match primary query documents top_n with
  | .ok r => .ok r
  | .error _ => fallback query documents top_n

/-! ### Chunk data model

Chunks travel through the retrieval service as Python dicts.  The embedding uses
a structure holding exactly the keys the embedded code reads or writes; a key
that may be absent in the dict is an `Option` field. -/

/-- The `metadata` mapping attached to a chunk (§3 of the spec: `document_id`,
`section_path`, `chunk_index`, `page_number`, `element_type`).  Fields the
embedded code never reads are omitted. -/
structure ChunkMeta where
  document_id : Option String := none
  section_path : Option String := none
  chunk_index : Option Int := none
  element_type : Option String := none
deriving Repr, DecidableEq

/-- A chunk dict as handled by `retrieval_service.py` / `rerank_service.py`. -/
structure Chunk where
  id : String := ""
  text : String := ""
  metadata : ChunkMeta := {}
  distance : Option ℚ := none
  vector_score : Option ℚ := none
  bm25_score : Option ℚ := none
  fused_score : Option ℚ := none
  rerank_score : Option ℚ := none
deriving Repr, DecidableEq

/-- `section_groups.setdefault(section, []).append(chunk)`: append `c` to the
group keyed `s`, creating the group at the end when the key is new (Python dicts
preserve insertion order). -/
def addToGroups (groups : List (String × List Chunk)) (s : String) (c : Chunk) :
    List (String × List Chunk) :=
  match groups with
  | [] => [(s, [c])]
  | (k, v) :: rest =>
    if k = s then (k, v ++ [c]) :: rest else (k, v) :: addToGroups rest s c

/-- The section-grouping loop of `rerank_chunks_with_metadata`: group chunks by
`metadata.get("section_path", "unknown")`, keys in first-occurrence order,
chunks within a group in input order. -/
def sectionGroups (chunks : List Chunk) : List (String × List Chunk) :=
  chunks.foldl (fun gs c => addToGroups gs (c.metadata.section_path.getD "unknown") c) []

/-- The table-intent test of `rerank_chunks_with_metadata`:
`"表格" in query or "table" in query.lower()`. -/
def queryMentionsTable (query : String) : Bool :=
  containsSub query "表格" || containsSub query.toLower "table"

/-- The per-group score computed by the scoring loop of
`rerank_chunks_with_metadata`: mean of `c.get("distance", 1.0)`, then `*= 0.7`
when the section name contains a core-section name, then `*= 0.8` when the query
mentions tables and the group contains a table-typed chunk. -/
def rb_group_score (query : String) (sec : String) (cs : List Chunk) : ℚ :=
  let distances := cs.map (fun c => c.distance.getD 1)
  let avg := distances.sum / (distances.length : ℚ)
  let score := if CORE_SECTIONS.any (fun core => containsSub sec core)
    then avg * (7/10) else avg
  let has_table := cs.any (fun c => c.metadata.element_type = some "table")
  if queryMentionsTable query && has_table then score * (4/5) else score

/-- `RuleBasedReranker.rerank_chunks_with_metadata` from `rerank_service.py`:
group by section, score each group, sort groups by score ascending (stable),
emit each group's chunks sorted by `int(metadata.get("chunk_index", 0))`
ascending with `rerank_score = 1.0 - section_score`, and truncate to `top_n`. -/
def rerank_chunks_with_metadata (query : String) (chunks : List Chunk) (top_n : ℕ) :
    List Chunk :=
  if chunks.isEmpty then [] else
  let groups := sectionGroups chunks
  let scores : List (String × ℚ) := groups.map (fun g => (g.1, rb_group_score query g.1 g.2))
  let sorted := pySort (fun a b => a.2 < b.2) scores
  let reranked := sorted.flatMap (fun p =>
    let gchunks := ((groups.find? (fun g => g.1 = p.1)).map (fun g => g.2)).getD []
    let gsorted := pySort
      (fun a b => a.metadata.chunk_index.getD 0 < b.metadata.chunk_index.getD 0) gchunks
    gsorted.map (fun c => { c with rerank_score := some (1 - p.2) }))
  reranked.take top_n

/-! Spec-side reformulation of the metadata-aware rule-based reranking, written
from the spec's words (§4.6) for the refinement claim C7. -/

/-- Spec §4.6: "score each group by mean vector distance". -/
def meanDistance (cs : List Chunk) : ℚ :=
  (cs.map (fun c => c.distance.getD 1)).sum / ((cs.map (fun c => c.distance.getD 1)).length : ℚ)

/-- Spec §4.6: "apply a fixed multiplicative boost (~0.7×, lower distance is
better) to sections matching a fixed list of core section names". -/
def coreBoost (sec : String) : ℚ :=
  if CORE_SECTIONS.any (fun core => containsSub sec core) then 7/10 else 1

/-- Spec §4.6: "apply a conditional boost when the query mentions tabular data
and the group contains a table-typed chunk". -/
def tableBoost (query : String) (cs : List Chunk) : ℚ :=
  if queryMentionsTable query && cs.any (fun c => c.metadata.element_type = some "table")
  then 4/5 else 1

/-- Spec-side group score: the mean distance multiplied by the two boosts. -/
def specGroupScore (query : String) (sec : String) (cs : List Chunk) : ℚ :=
  meanDistance cs * coreBoost sec * tableBoost query cs

/-- Spec-side reranking (claim C7): group by section, order the groups by their
score ascending (stable), order chunks within a group by `chunk_index`
ascending (stable), attach `rerank_score = 1 - group score`, return the first
`top_n` chunks. -/
def rerankMetadataSpec (query : String) (chunks : List Chunk) (top_n : ℕ) : List Chunk :=
  let groups := sectionGroups chunks
  ((pySort (fun a b => specGroupScore query a.1 a.2 < specGroupScore query b.1 b.2) groups).flatMap
    (fun g =>
      (pySort (fun a b => a.metadata.chunk_index.getD 0 < b.metadata.chunk_index.getD 0) g.2).map
        (fun c => { c with rerank_score := some (1 - specGroupScore query g.1 g.2) }))).take top_n

/-! ## Retrieval service (`backend/app/services/retrieval_service.py`) -/

/-- Truthiness of a Python `Optional[str]`: `None` and `""` are falsy. -/
def pyTruthyOptStr : Option String → Bool
  | none => false
  | some s => s ≠ ""

/-- A cache key.  Modelled from the spec: `chunks_cache_key` lives in the cache
service module, which is not in the source tree; §4.7 says vector-only queries
are "cached keyed by `(document_id_or_"all", query)`", and the call site passes
`(document_id or "all_docs", query)`. -/
abbrev CacheKey := String × String

/-- Modelled from the spec: `chunks_cache_key` builds the cache key from the
document scope and the query text (and from nothing else). -/
def chunks_cache_key (scope query : String) : CacheKey := (scope, query)

/-- A cached value together with its absolute expiry time (seconds). -/
structure CacheEntry where
  value : List Chunk
  expiresAt : ℕ
deriving Repr, DecidableEq

/-- The chunk-layer cache: a map from key to entry, modelled as an association
list (most recent write first). -/
abbrev CacheState := List (CacheKey × CacheEntry)

/-- Modelled from the spec: `CacheService.get_json` returns the stored value
while it has not expired (§4.7: "a fixed TTL (1 hour)"). -/
def cache_get (cache : CacheState) (now : ℕ) (key : CacheKey) : Option (List Chunk) :=
  match cache.find? (fun p => p.1 = key) with
  | some p => if now < p.2.expiresAt then some p.2.value else none
  | none => none

/-- Modelled from the spec: `CacheService.set_json` stores the value under the
key with expiry `now + ttl`, replacing any previous entry for the key. -/
def cache_set (cache : CacheState) (now : ℕ) (key : CacheKey) (value : List Chunk)
    (ttl : ℕ) : CacheState :=
  (key, CacheEntry.mk value (now + ttl)) :: cache.filter (fun p => p.1 ≠ key)

/-- `RetrievalService.CACHE_TTL = 60 * 60`. -/
def CACHE_TTL : ℕ := 60 * 60

/-- The Chroma `where` filter built by `vector_search`: always an equality filter
on `user_id`, plus one on `document_id` when a document id was (truthily)
given. -/
structure WhereClause where
  user_id : String
  document_id : Option String
deriving Repr, DecidableEq

/-- A fused result returned by the hybrid retriever (`RetrievalResult` of
`hybrid_retriever.py`, a module consumed here as an external collaborator). -/
structure HybridResult where
  chunk_id : String
  text : String
  metadata : ChunkMeta
  vector_score : ℚ
  bm25_score : ℚ
  fused_score : ℚ
deriving Repr, DecidableEq

/-- External collaborators of `RetrievalService`: the embedding provider, the
Chroma collection query, the hybrid retriever and the configured reranker chain
(`get_reranker().rerank_chunks`, which may raise). -/
structure RetrievalEnv where
  embed : String → List ℚ
  store_query : List ℚ → WhereClause → ℕ → List Chunk
  hybrid_fn : String → String → String → List ℚ → ℕ → List HybridResult
  rerankChunks : String → List Chunk → ℕ → Except String (List Chunk)

/-- The outcome of a retrieval call, including the effects the claims observe:
the updated cache, how many embedding calls ran, which vector-store queries ran
(with their filters), and whether the hybrid path was taken. -/
structure VSResult where
  chunks : List Chunk
  cache : CacheState
  embedCalls : ℕ
  storeQueries : List WhereClause
  usedHybrid : Bool
deriving Repr

/-- The scope component of the cache key: `document_id or "all_docs"`. -/
def cacheScope (document_id : Option String) : String :=
  if pyTruthyOptStr document_id then document_id.getD "" else "all_docs"

/-- The miss path of `RetrievalService.vector_search`: embed the query, query
the collection with the user (and optional document) filter, cache the
formatted chunks under the key with `CACHE_TTL`, and return them. -/
def vector_search_miss (env : RetrievalEnv) (cache : CacheState) (now : ℕ)
    (query user_id : String) (document_id : Option String) (k : ℕ) : VSResult :=
  let key := chunks_cache_key (cacheScope document_id) query
  let embedding := env.embed query
  let w : WhereClause :=
    WhereClause.mk user_id (if pyTruthyOptStr document_id then document_id else none)
  let chunks := env.store_query embedding w k
  VSResult.mk chunks (cache_set cache now key chunks CACHE_TTL) 1 [w] false

/-- `RetrievalService.vector_search`: check the chunk cache first (`if cached:`
-- a hit requires a stored, unexpired, *non-empty* list, by Python truthiness);
on a hit return the cached list unchanged, otherwise run the miss path. -/
def vector_search (env : RetrievalEnv) (cache : CacheState) (now : ℕ)
    (query user_id : String) (document_id : Option String) (k : ℕ) : VSResult :=
  let key := chunks_cache_key (cacheScope document_id) query
  match cache_get cache now key with
  | some cached =>
    if cached.isEmpty then vector_search_miss env cache now query user_id document_id k
    else VSResult.mk cached cache 0 [] false
  | none => vector_search_miss env cache now query user_id document_id k

/-- `RetrievalService.hybrid_search`: embed the query, run the hybrid retriever
and convert its results to chunk dicts with `distance = 1.0 - fused_score`.
It performs no cache read or write. -/
def hybrid_search (env : RetrievalEnv) (query user_id document_id : String) (k : ℕ) :
    List Chunk :=
  let embedding := env.embed query
  let results := env.hybrid_fn query document_id user_id embedding k
  results.map (fun r =>
    { id := r.chunk_id, text := r.text, metadata := r.metadata,
      distance := some (1 - r.fused_score), vector_score := some r.vector_score,
      bm25_score := some r.bm25_score, fused_score := some r.fused_score })

/-- The retrieval mode literal. -/
inductive RetrievalMode where
  | vector
  | hybrid
deriving Repr, DecidableEq

/-- The settings fields `retrieve` reads. -/
structure RetrievalSettings where
  rerank_enabled : Bool
  rerank_top_n : ℕ
deriving Repr, DecidableEq

/-- `RetrievalService._rerank`: try the configured reranker; on any exception
fall back to `RuleBasedReranker().rerank_chunks_with_metadata`. -/
def retrievalRerank (env : RetrievalEnv) (query : String) (chunks : List Chunk)
    (top_n : ℕ) : List Chunk :=
  match env.rerankChunks query chunks top_n with
  | .ok r => r
  | .error _ => rerank_chunks_with_metadata query chunks top_n

/-- `rerank_top_n or self.settings.rerank_top_n` (Python `or`: `None` and `0`
are falsy). -/
def effectiveTopN (rerank_top_n : Option ℕ) (settings : RetrievalSettings) : ℕ :=
  match rerank_top_n with
  | some m => if m ≠ 0 then m else settings.rerank_top_n
  | none => settings.rerank_top_n

/-- The tail of `RetrievalService.retrieve` after mode selection: return `[]`
unchanged when nothing was retrieved, otherwise rerank when both the call
argument and the configuration enable it. -/
def retrieveTail (env : RetrievalEnv) (settings : RetrievalSettings) (query : String)
    (rerank : Bool) (rerank_top_n : Option ℕ) (base : VSResult) : VSResult :=
  if base.chunks.isEmpty then base
  else if rerank && settings.rerank_enabled then
    { base with chunks := retrievalRerank env query base.chunks (effectiveTopN rerank_top_n settings) }
  else base

/-- `RetrievalService.retrieve`: take the hybrid path only when
`mode == "hybrid" and document_id` (Python truthiness); otherwise degrade to
`vector_search` (logging the degradation, which has no semantic effect); then
optionally rerank the non-empty result set. -/
def retrieve (env : RetrievalEnv) (settings : RetrievalSettings) (cache : CacheState)
    (now : ℕ) (query user_id : String) (document_id : Option String)
    (mode : RetrievalMode) (top_k : ℕ) (rerank : Bool) (rerank_top_n : Option ℕ) :
    VSResult :=
  let base :=
    if mode == RetrievalMode.hybrid && pyTruthyOptStr document_id then
      VSResult.mk (hybrid_search env query user_id (document_id.getD "") top_k) cache 1 [] true
    else
      vector_search env cache now query user_id document_id top_k
  retrieveTail env settings query rerank rerank_top_n base

/-! ## ReAct agent (`backend/app/agent/react_agent.py`, `tools/finish.py`) -/

/-- A Python/JSON value, as carried in tool arguments and tool results. -/
inductive Json where
  | null
  | bool (b : Bool)
  | num (n : Int)
  | str (s : String)
  | arr (items : List Json)
  | obj (fields : List (String × Json))

/-- A string-keyed Python dict in insertion order. -/
abbrev Args := List (String × Json)

/-- First binding of `k` in the dict, if any. -/
def dictLookup (d : Args) (k : String) : Option Json :=
  (d.find? (fun p => p.1 = k)).map (fun p => p.2)

/-- Python `d.get(k, default)`. -/
def pyDictGet (d : Args) (k : String) (default : Json) : Json :=
  (dictLookup d k).getD default

/-- Python truthiness of a JSON value. -/
def jsonTruthy : Json → Bool
  | .null => false
  | .bool b => b
  | .num n => n ≠ 0
  | .str s => s ≠ ""
  | .arr l => !l.isEmpty
  | .obj l => !l.isEmpty

/-- Python `a or b`. -/
def pyOr (a b : Json) : Json := if jsonTruthy a then a else b

/-- Python `x[:200]`: defined on strings and lists, a `TypeError` (modelled as
`none`) on anything else. -/
def pySlice200 : Json → Option Json
  | .str s => some (.str (s.take 200))
  | .arr l => some (.arr (l.take 200))
  | _ => none

/-- A tool-call request parsed from the LLM response (`ToolCall` in
`react_agent.py`). -/
structure ToolCallV where
  name : String
  arguments : Args
  id : String := ""

/-- Modelled from the spec: `ThoughtStep` (§3 data model; the declaring module
`agent/types.py` is not in the source tree): one loop iteration's thought,
action, action input and observation. -/
structure ThoughtStep where
  thought : String
  action : Option String
  action_input : Option Args
  observation : Option String

/-- A source citation entry as built by `ReActAgent._extract_sources`.  All
values except `documentId` (always `str(...)`) and `sourceType` (always a
literal) are arbitrary JSON values taken from the tool result. -/
structure Source where
  documentId : String
  title : Json
  textSnippet : Json
  url : Json
  sourceType : String

/-- A message of the provider-neutral conversation history. -/
inductive Msg where
  | system (content : String)
  | user (content : String)
  | assistant (content : String)
  | assistantTool (content : String) (tc : ToolCallV)
  | toolMsg (tool_call_id : String) (content : String)
  | modelFunctionCall (name : String) (args : Args)
  | functionResult (name : String) (content : String)

/-- A tool handler's return value: a string, or any other (JSON-serializable)
value. -/
inductive ToolRes where
  | str (s : String)
  | json (j : Json)

/-- A tool handler; it may raise (model: `Except.error` with the exception
message). -/
abbrev ToolHandler := Args → Except String ToolRes

/-- The tool registry: name-to-handler bindings. -/
abbrev Registry := List (String × ToolHandler)

/-- The error raised by the registry. -/
inductive ToolErr where
  | notFound
  | exc (msg : String)

/-- Modelled from the spec: `ToolRegistry.invoke` (§4.8) dispatches on the tool
name and "fails with a distinguished tool-not-found condition if the name is
unregistered"; the module `agent/tools/registry.py` is not in the source tree. -/
def registry_invoke (reg : Registry) (name : String) (args : Args) :
    Except ToolErr ToolRes :=
  match reg.find? (fun p => p.1 = name) with
  | none => .error .notFound
  | some p =>
    match p.2 args with
    | .ok r => .ok r
    | .error m => .error (.exc m)

/-- The LLM provider selected by configuration. -/
inductive Provider where
  | openai
  | gemini
deriving Repr, DecidableEq

/-- Modelled from the spec: the intent labels of the router (§4.9: "an intent
pre-check may short-circuit the loop entirely for high-confidence
greeting/identity queries"); `agent/types.py` and `agent/router.py` are not in
the source tree. -/
inductive IntentType where
  | direct_answer
  | other
deriving Repr, DecidableEq

/-- Modelled from the spec: an intent classification (label + confidence). -/
structure IntentResult where
  intent : IntentType
  confidence : ℚ
deriving Repr, DecidableEq

/-- The agent's collaborators: the provider-abstracted LLM call
(`_call_llm : history → (thought_text, optional tool_call)`), the tool
registry, the optional intent router, the (missing-from-src, hence abstract)
system prompt text, and the stdlib `json.dumps` / `json.loads`. -/
structure AgentEnv where
  provider : Provider
  system_prompt : String
  llm : List Msg → String × Option ToolCallV
  registry : Registry
  router : Option (String → IntentResult)
  dumps : Json → String
  parse : String → Option Json

/-- `_execute_tool`'s argument patch: `if "user_id" not in action_input:
action_input["user_id"] = user_id`. -/
def withUserId (action_input : Args) (user_id : String) : Args :=
  if (dictLookup action_input "user_id").isSome then action_input
  else action_input ++ [("user_id", .str user_id)]

/-- `ReActAgent._execute_tool`: invoke the tool and render the result; every
exception is caught and rendered as an `Error: ...` observation string, so the
function is total (the loop never crashes on a tool failure). -/
def execute_tool (env : AgentEnv) (action : String) (action_input : Args)
    (user_id : String) : String :=
  match registry_invoke env.registry action (withUserId action_input user_id) with
  | .ok (.str s) => s
  | .ok (.json j) => env.dumps j
  | .error .notFound => "Error: Tool " ++ sq ++ action ++ sq ++ " not found."
  | .error (.exc m) => "Error: " ++ m

/-- The body of the `sources.append({...})` call in `_extract_sources` for one
list item (a dict `d` at enumeration index `i`); `none` models the `TypeError`
raised by slicing a non-string, non-list snippet value, which aborts the
remaining items (the surrounding bare `except` swallows it). -/
def mkSource (action : String) (start_idx i : ℕ) (d : Args) : Option Source :=
  match pySlice200 (pyOr (pyDictGet d "content" .null) (pyDictGet d "text" (.str ""))) with
  | none => none
  | some snip =>
    some (Source.mk (toString (start_idx + i))
      (pyOr (pyDictGet d "title" .null) (pyDictGet d "document_name" (.str "Untitled")))
      snip
      (pyDictGet d "url" (.str ""))
      (if action = "web_search" then "web" else "pdf"))

/-- The `for i, item in enumerate(data)` loop of `_extract_sources`: skip
non-dict items (keeping their enumeration index), stop at the first item whose
processing raises. -/
def extractItems (action : String) (start_idx : ℕ) : List (ℕ × Json) → List Source
  | [] => []
  | (i, .obj d) :: rest =>
    match mkSource action start_idx i d with
    | some s => s :: extractItems action start_idx rest
    | none => []
  | (_, _) :: rest => extractItems action start_idx rest

/-- `ReActAgent._extract_sources`: for `document_search` / `web_search`
observations that parse as a JSON list, append one source per dict item,
numbered `str(len(sources) + 1 + i)`; anything else leaves the list unchanged. -/
def extract_sources (parse : String → Option Json) (action : String)
    (observation : String) (sources : List Source) : List Source :=
  if action = "web_search" ∨ action = "document_search" then
    match parse observation with
    | some (.arr items) => sources ++ extractItems action (sources.length + 1) items.enum
    | _ => sources
  else sources

/-- `DEFAULT_MAX_STEPS` from `react_agent.py`. -/
def DEFAULT_MAX_STEPS : ℕ := 10

/-- The re-prompt sent when the model produced no tool call:
"Please continue with a tool call or use the 'finish' tool to provide your answer." -/
def continuePrompt : String :=
  "Please continue with a tool call or use the " ++ sq ++ "finish" ++ sq ++
    " tool to provide your answer."

/-- `ReActAgent._build_initial_history`: system prompt plus the user context
framing (the system prompt text `REACT_AGENT_SYSTEM_PROMPT`, formatted with the
current date, is not in the source tree and is abstract here). -/
def build_initial_history (system_prompt query user_id : String) : List Msg :=
  [ .system system_prompt,
    .user ("\nContext:\n- User ID: " ++ user_id ++
      "\n- You will search across all documents belonging to this user" ++
      "\n- When using document_search, always include user_id in the action_input" ++
      "\n\nUser Question: " ++ query ++ "\n") ]

/-- The per-provider history update after a tool execution. -/
def historyAppend (provider : Provider) (thought : String) (tc : ToolCallV)
    (obs : String) : List Msg :=
  match provider with
  | .openai => [.assistantTool thought tc, .toolMsg tc.id obs]
  | .gemini => [.modelFunctionCall tc.name tc.arguments, .functionResult tc.name obs]

/-- The loop state of `ReActAgent.run`: conversation history, recorded thought
steps, citation sources, raw observations, and the number of iterations
executed so far. -/
structure LoopState where
  history : List Msg
  steps : List ThoughtStep
  sources : List Source
  observations : List String
  stepCount : ℕ

/-- The successor state after a non-finish tool call: execute the tool, record
the step with its observation, fold the observation into the sources, and
append the provider-specific messages. -/
def toolSuccState (env : AgentEnv) (user_id : String) (st : LoopState)
    (thought : String) (tc : ToolCallV) : LoopState :=
  let obs := execute_tool env tc.name tc.arguments user_id
  { history := st.history ++ historyAppend env.provider thought tc obs,
    steps := st.steps ++ [ThoughtStep.mk thought (some tc.name) (some tc.arguments) (some obs)],
    sources := extract_sources env.parse tc.name obs st.sources,
    observations := st.observations ++ [obs],
    stepCount := st.stepCount + 1 }

/-- The successor state when the model produced no tool call: record the step
(observation-less), append the thought (defaulted when empty) and the
re-prompt. -/
def noToolSuccState (st : LoopState) (thought : String) : LoopState :=
  let shown := if thought = "" then "I need to think about this..." else thought
  { history := st.history ++ [.assistant shown, .user continuePrompt],
    steps := st.steps ++ [ThoughtStep.mk thought none none none],
    sources := st.sources,
    observations := st.observations,
    stepCount := st.stepCount + 1 }

/-- The `while step_count < max_steps` loop of `ReActAgent.run`, by remaining
iterations.  Returns the final state and `some answer` when the `finish` tool
was called (`answer = tool_call.arguments.get("answer", "")`, and the finish
tool's handler is never executed), `none` when the step limit was exhausted. -/
def runLoop (env : AgentEnv) (user_id : String) : ℕ → LoopState → LoopState × Option Json
  | 0, st => (st, none)
  | fuel + 1, st =>
    let res := env.llm st.history
    match res.2 with
    | some tc =>
      if tc.name = "finish" then
        ({ st with
            steps := st.steps ++ [ThoughtStep.mk res.1 (some tc.name) (some tc.arguments) none],
            stepCount := st.stepCount + 1 },
          some (pyDictGet tc.arguments "answer" (.str "")))
      else runLoop env user_id fuel (toolSuccState env user_id st res.1 tc)
    | none => runLoop env user_id fuel (noToolSuccState st res.1)

/-- The greeting map of `ReActAgent._generate_direct_answer`, checked in
insertion order against the lowercased, stripped query. -/
def generate_direct_answer (query : String) : String :=
  let q := query.toLower.trim
  if containsSub q "hello" then "Hello! How can I help you today?"
  else if containsSub q "hi" then "Hi there!"
  else if containsSub q "how are you" then "I" ++ sq ++ "m doing well, thanks!"
  else "Hello! How can I help?"

/-- The fixed fallback of `_synthesize_final_answer` when no observations were
gathered: "I couldn't find enough information." -/
def noInfoMsg : String := "I couldn" ++ sq ++ "t find enough information."

/-- The system message of the synthesis call. -/
def synthSystemMsg : String := "Synthesize the following information."

/-- `ReActAgent._synthesize_final_answer`: with no observations, a fixed
message; otherwise one more LLM call over the joined observations, whose
returned text is the answer. -/
def synthesize (env : AgentEnv) (query : String) (observations : List String) : String :=
  if observations.isEmpty then noInfoMsg
  else
    (env.llm [ .system synthSystemMsg,
      .user ("Query: " ++ query ++ "\n\nInfo:\n" ++ String.intercalate "\n" observations) ]).1

/-- The intent pre-check of `ReActAgent.run`: short-circuit when the router
classifies the query as a direct answer with confidence at least 0.9. -/
def routerShortCircuit (env : AgentEnv) (query : String) : Bool :=
  match env.router with
  | some classify =>
    decide ((classify query).intent = IntentType.direct_answer ∧ 9/10 ≤ (classify query).confidence)
  | none => false

/-- The observable outcome of `ReActAgent.run` (the `AgentResponse` fields the
claims are about; `model_used` and the wall-clock latency are external). -/
structure AgentRunOut where
  answer : Json
  sources : List Source
  intermediate_steps : List ThoughtStep
  stepCount : ℕ

/-- `ReActAgent.run`: intent pre-check, then the ReAct loop; when the loop did
not produce a (non-`None`) finish answer, synthesize one from the accumulated
observations.  `answer` is `Json` because `arguments.get("answer", "")` passes
the raw finish-tool argument value through. -/
def agent_run (env : AgentEnv) (query user_id : String) (max_steps : ℕ) : AgentRunOut :=
  if routerShortCircuit env query then
    AgentRunOut.mk (.str (generate_direct_answer query)) [] [] 0
  else
    let st0 : LoopState :=
      LoopState.mk (build_initial_history env.system_prompt query user_id) [] [] [] 0
    let r := runLoop env user_id max_steps st0
    let answer : Json :=
      match r.2 with
      | some Json.null => .str (synthesize env query r.1.observations)
      | some a => a
      | none => .str (synthesize env query r.1.observations)
    AgentRunOut.mk answer r.1.sources r.1.steps r.1.stepCount

/-- Consecutive 1-based citation numbering (claim C9): the `k`-th source entry
(0-based) carries `documentId = str(k + 1)`. -/
def consecutiveIds (ss : List Source) : Prop :=
  ∀ (k : ℕ) (h : k < ss.length), (ss.get ⟨k, h⟩).documentId = toString (k + 1)

/-- A `json.loads` stand-in that parses every observation to `[{}]` (one dict),
for the C9 witness. -/
def parseW9 : String → Option Json := fun _ => some (.arr [.obj []])

/-- A `json.loads` stand-in matching `json.loads("[1, \x7b\x7d]") = [1, \x7b\x7d]`:
a list whose first item is not a dict, for the C9 counterexample. -/
def parseC9 : String → Option Json := fun _ => some (.arr [.num 1, .obj []])

/-- A retrieval environment whose store returns results only for user "B", for
the C10 counterexample: user A's search stores `[]` in the cache; Python
truthiness then treats the stored empty list as a miss. -/
def envC10 : RetrievalEnv where
  embed := fun _ => []
  store_query := fun _ w _ => if w.user_id = "B" then [{ id := "c" }] else []
  hybrid_fn := fun _ _ _ _ _ => []
  rerankChunks := fun _ c _ => .ok c

/-- A primary reranker that always raises, for the C4 witness. -/
def failingPrimary : RerankFn := fun _ _ _ => .error "boom"

/-- A retrieval environment for concrete witnesses. -/
def wRetEnv : RetrievalEnv where
  embed := fun _ => [1]
  store_query := fun _ _ _ => []
  hybrid_fn := fun _ _ _ _ _ => []
  rerankChunks := fun _ c _ => .ok c

/-- An agent environment for concrete witnesses of the tool-execution claims. -/
def wAgentEnv : AgentEnv where
  provider := .openai
  system_prompt := ""
  llm := fun _ => ("", none)
  registry := [("good", fun _ => .ok (.str "fine")), ("bad", fun _ => .error "boom")]
  router := none
  dumps := fun _ => ""
  parse := fun _ => none

/-- An agent environment whose LLM immediately calls `finish` with the answer
`X[[citation:1]]`. -/
def envC2 : AgentEnv where
  provider := .openai
  system_prompt := ""
  llm := fun _ => ("ok", some (ToolCallV.mk "finish" [("answer", .str "X[[citation:1]]")] "1"))
  registry := []
  router := none
  dumps := fun _ => ""
  parse := fun _ => none

/-- An agent environment whose LLM always requests a (non-finish) tool and
returns empty text to the synthesis call, for the C1 witness and
counterexample. -/
def envC1 : AgentEnv where
  provider := .openai
  system_prompt := ""
  llm := fun h =>
    match h with
    | Msg.system s :: _ =>
      if s = synthSystemMsg then ("", none)
      else ("think", some (ToolCallV.mk "t" [] "1"))
    | _ => ("", none)
  registry := [("t", fun _ => .ok (.str "obs"))]
  router := none
  dumps := fun _ => ""
  parse := fun _ => none

/-- An agent environment whose LLM immediately calls `finish` with a non-empty
answer, for the C5 witness. -/
def envC5w : AgentEnv where
  provider := .openai
  system_prompt := ""
  llm := fun _ => ("thinking", some (ToolCallV.mk "finish" [("answer", .str "done")] "1"))
  registry := []
  router := none
  dumps := fun _ => ""
  parse := fun _ => none

/-- An agent environment whose LLM immediately calls `finish` with an *empty*
answer string. -/
def envC5 : AgentEnv where
  provider := .openai
  system_prompt := ""
  llm := fun _ => ("thinking", some (ToolCallV.mk "finish" [("answer", .str "")] "1"))
  registry := []
  router := none
  dumps := fun _ => ""
  parse := fun _ => none

/-- A one-chunk store result for the C6 witness. -/
def wChunk : Chunk := { id := "c1", text := "t" }

/-- A cache that already holds a non-empty entry for `("d", "q")` expiring at
time 10, for the C6 witness. -/
def wCache : CacheState := [(("d", "q"), CacheEntry.mk [wChunk] 10)]

/-- Witness for C10 (amended): with a store that returns one chunk for user A,
user B's call within the TTL is served A's chunks from the cache, with no
store query. -/
def wRetEnvA : RetrievalEnv where
  embed := fun _ => [1]
  store_query := fun _ _ _ => [wChunk]
  hybrid_fn := fun _ _ _ _ _ => []
  rerankChunks := fun _ c _ => .ok c

/-! ## Theorems -/

/-- Claim C4: for every query, document list and `top_n`, if the primary
reranker's `_rerank_impl` raises any exception, `FallbackReranker._rerank_impl`
returns exactly the ranking produced by the rule-based fallback reranker on the
same input, and the primary's exception is not propagated to the caller. -/
theorem fallback_reranker_on_primary_failure (primary : RerankFn) (query : String)
    (documents : List String) (top_n : ℕ) (e : String)
    (hfail : primary query documents top_n = .error e) :
    FallbackReranker_rerank_impl primary ruleBasedRerankFn query documents top_n
      = .ok (RuleBasedReranker_rerank_impl query documents top_n) := by
  unfold FallbackReranker_rerank_impl
  rw [hfail]
  rfl

/-- Witness for C4 at a concrete input. -/
theorem fallback_reranker_on_primary_failure_witness :
    failingPrimary "alpha beta" ["alpha doc", "gamma"] 2 = .error "boom" ∧
    FallbackReranker_rerank_impl failingPrimary ruleBasedRerankFn "alpha beta"
        ["alpha doc", "gamma"] 2
      = .ok (RuleBasedReranker_rerank_impl "alpha beta" ["alpha doc", "gamma"] 2) :=
  ⟨rfl, fallback_reranker_on_primary_failure failingPrimary "alpha beta"
    ["alpha doc", "gamma"] 2 "boom" rfl⟩

/-- The vector path never sets the hybrid marker. -/
theorem vector_search_not_hybrid (env : RetrievalEnv) (cache : CacheState) (now : ℕ)
    (query user_id : String) (document_id : Option String) (k : ℕ) :
    (vector_search env cache now query user_id document_id k).usedHybrid = false := by
  simp only [vector_search]
  split
  · split
    · simp [vector_search_miss]
    · rfl
  · simp [vector_search_miss]

/-- The post-processing of `retrieve` never changes the hybrid marker. -/
theorem retrieveTail_usedHybrid (env : RetrievalEnv) (settings : RetrievalSettings)
    (query : String) (rerank : Bool) (rerank_top_n : Option ℕ) (base : VSResult) :
    (retrieveTail env settings query rerank rerank_top_n base).usedHybrid
      = base.usedHybrid := by
  unfold retrieveTail
  split
  · rfl
  · split <;> rfl

/-- The post-processing of `retrieve` never touches the cache. -/
theorem retrieveTail_cache (env : RetrievalEnv) (settings : RetrievalSettings)
    (query : String) (rerank : Bool) (rerank_top_n : Option ℕ) (base : VSResult) :
    (retrieveTail env settings query rerank rerank_top_n base).cache = base.cache := by
  unfold retrieveTail
  split
  · rfl
  · split <;> rfl

/-- The hybrid marker of `retrieve` is exactly the mode-selection condition
`mode == "hybrid" and document_id`. -/
theorem retrieve_usedHybrid (env : RetrievalEnv) (settings : RetrievalSettings)
    (cache : CacheState) (now : ℕ) (query user_id : String)
    (document_id : Option String) (mode : RetrievalMode) (top_k : ℕ)
    (rerank : Bool) (rerank_top_n : Option ℕ) :
    (retrieve env settings cache now query user_id document_id mode top_k rerank
      rerank_top_n).usedHybrid
      = (mode == RetrievalMode.hybrid && pyTruthyOptStr document_id) := by
  simp only [retrieve, retrieveTail_usedHybrid]
  by_cases hcond : (mode == RetrievalMode.hybrid && pyTruthyOptStr document_id) = true
  · simp [hcond]
  · have hfalse : (mode == RetrievalMode.hybrid && pyTruthyOptStr document_id) = false := by
      simpa using hcond
    simp [hfalse, vector_search_not_hybrid]

/-- Claim C3: a `hybrid`-mode call without a document id raises no error and is
identical to the `vector`-mode call on the same arguments; the hybrid path is
taken only when a (truthy) document id is provided. -/
theorem hybrid_without_document_degrades_to_vector (env : RetrievalEnv)
    (settings : RetrievalSettings) (cache : CacheState) (now : ℕ)
    (query user_id : String) (top_k : ℕ) (rerank : Bool) (rerank_top_n : Option ℕ) :
    retrieve env settings cache now query user_id none .hybrid top_k rerank rerank_top_n
      = retrieve env settings cache now query user_id none .vector top_k rerank rerank_top_n
    ∧ (∀ document_id mode,
        (retrieve env settings cache now query user_id document_id mode top_k rerank
          rerank_top_n).usedHybrid = true →
        mode = RetrievalMode.hybrid ∧ ∃ d, document_id = some d ∧ d ≠ "") := by
  constructor
  · rfl
  · intro document_id mode h
    rw [retrieve_usedHybrid] at h
    have hcond := (Bool.and_eq_true _ _).mp h
    constructor
    · exact (beq_iff_eq.mp hcond.1)
    · cases document_id with
      | none => simp [pyTruthyOptStr] at hcond
      | some d =>
        refine ⟨d, rfl, ?_⟩
        have := hcond.2
        simpa [pyTruthyOptStr] using this

/-- Witness for C3: at concrete inputs, the degraded call equals the vector
call, and a genuinely hybrid call implies a provided document id. -/
theorem hybrid_without_document_degrades_to_vector_witness :
    (retrieve wRetEnv ⟨false, 5⟩ [] 0 "q" "u" none .hybrid 10 true none
      = retrieve wRetEnv ⟨false, 5⟩ [] 0 "q" "u" none .vector 10 true none)
    ∧ (RetrievalMode.hybrid = RetrievalMode.hybrid ∧ ∃ d, (some "doc" : Option String) = some d ∧ d ≠ "") :=
  ⟨(hybrid_without_document_degrades_to_vector wRetEnv ⟨false, 5⟩ [] 0 "q" "u" 10 true none).1,
   (hybrid_without_document_degrades_to_vector wRetEnv ⟨false, 5⟩ [] 0 "q" "u" 10 true none).2
     (some "doc") .hybrid (by rfl)⟩

/-- Claim C8: tool execution never raises into the loop; an unregistered tool
name yields the observation `Error: Tool '<name>' not found.`, any other tool
failure yields an `Error: ...` observation, and the loop then continues to the
next step carrying that observation.  (`execute_tool` is a total function: the
Python `try/except` catches every exception.) -/
theorem execute_tool_error_observations (env : AgentEnv) (action : String)
    (args : Args) (user_id : String) :
    (env.registry.find? (fun p => p.1 = action) = none →
      execute_tool env action args user_id
        = "Error: Tool " ++ sq ++ action ++ sq ++ " not found.")
    ∧ (∀ b m, env.registry.find? (fun p => p.1 = action) = some b →
        b.2 (withUserId args user_id) = .error m →
        execute_tool env action args user_id = "Error: " ++ m)
    ∧ (∀ (st : LoopState) (fuel : ℕ) (tc : ToolCallV),
        (env.llm st.history).2 = some tc → tc.name ≠ "finish" →
        runLoop env user_id (fuel + 1) st
          = runLoop env user_id fuel (toolSuccState env user_id st (env.llm st.history).1 tc)
        ∧ (toolSuccState env user_id st (env.llm st.history).1 tc).observations
            = st.observations ++ [execute_tool env tc.name tc.arguments user_id]) := by
  refine ⟨?_, ?_, ?_⟩
  · intro h
    simp [execute_tool, registry_invoke, h]
  · intro b m hb hm
    simp [execute_tool, registry_invoke, hb, hm]
  · intro st fuel tc h1 h2
    constructor
    · simp only [runLoop, h1, h2]
      simp [h2]
    · rfl

/-- Witness for C8 at concrete inputs: a missing tool and a raising tool. -/
theorem execute_tool_error_observations_witness :
    execute_tool wAgentEnv "missing" [] "u"
      = "Error: Tool " ++ sq ++ "missing" ++ sq ++ " not found."
    ∧ execute_tool wAgentEnv "bad" [] "u" = "Error: boom" :=
  ⟨(execute_tool_error_observations wAgentEnv "missing" [] "u").1 rfl,
   (execute_tool_error_observations wAgentEnv "bad" [] "u").2.1
     ("bad", fun _ => .error "boom") "boom" rfl rfl⟩

/-- Claim C2: a `finish` tool call terminates the loop at that very step: the
answer is exactly the `answer` argument, the recorded step carries no
observation (the finish tool's handler is never executed -- the loop breaks
before `_execute_tool`), and no further iterations run.  The first conjunct
states this for an arbitrary loop state (hence for any step at which the finish
call occurs); the second specializes to a finish call at the first step of
`run`, where the returned `AgentResponse` is fully determined. -/
theorem finish_tool_terminates_immediately (env : AgentEnv) (query user_id : String)
    (max_steps : ℕ) (tc : ToolCallV) (th A : String)
    (hrouter : routerShortCircuit env query = false)
    (hms : 1 ≤ max_steps)
    (hllm : env.llm (build_initial_history env.system_prompt query user_id) = (th, some tc))
    (hname : tc.name = "finish")
    (hanswer : pyDictGet tc.arguments "answer" (.str "") = .str A) :
    (∀ (st : LoopState) (fuel : ℕ) (tc' : ToolCallV) (th' : String),
        env.llm st.history = (th', some tc') → tc'.name = "finish" →
        runLoop env user_id (fuel + 1) st
          = ({ st with
                steps := st.steps ++ [ThoughtStep.mk th' (some "finish") (some tc'.arguments) none],
                stepCount := st.stepCount + 1 },
             some (pyDictGet tc'.arguments "answer" (.str ""))))
    ∧ agent_run env query user_id max_steps
        = AgentRunOut.mk (.str A) []
            [ThoughtStep.mk th (some "finish") (some tc.arguments) none] 1 := by
  have hgen : ∀ (st : LoopState) (fuel : ℕ) (tc' : ToolCallV) (th' : String),
      env.llm st.history = (th', some tc') → tc'.name = "finish" →
      runLoop env user_id (fuel + 1) st
        = ({ st with
              steps := st.steps ++ [ThoughtStep.mk th' (some "finish") (some tc'.arguments) none],
              stepCount := st.stepCount + 1 },
           some (pyDictGet tc'.arguments "answer" (.str ""))) := by
    intro st fuel tc' th' h1 h2
    simp only [runLoop, h1, h2]
    simp [h2]
  refine ⟨hgen, ?_⟩
  obtain ⟨m, rfl⟩ := Nat.exists_eq_add_of_le hms
  rw [Nat.add_comm 1 m]
  simp only [agent_run, hrouter]
  rw [hgen _ m tc th hllm hname]
  simp [hanswer]

/-- Witness for C2: the concrete finish call terminates step one with the exact
answer and an observation-less step. -/
theorem finish_tool_terminates_immediately_witness :
    agent_run envC2 "q" "u" 10
      = AgentRunOut.mk (.str "X[[citation:1]]") []
          [ThoughtStep.mk "ok" (some "finish")
            (some [("answer", Json.str "X[[citation:1]]")]) none] 1 :=
  (finish_tool_terminates_immediately envC2 "q" "u" 10
    (ToolCallV.mk "finish" [("answer", .str "X[[citation:1]]")] "1") "ok" "X[[citation:1]]"
    rfl (by decide) rfl rfl rfl).2

/-- When the LLM never requests the `finish` tool, the loop never returns an
answer and runs its full fuel, one iteration per fuel unit. -/
theorem runLoop_no_finish (env : AgentEnv) (user_id : String)
    (hnf : ∀ h tc, (env.llm h).2 = some tc → tc.name ≠ "finish") :
    ∀ (fuel : ℕ) (st : LoopState),
      (runLoop env user_id fuel st).2 = none
      ∧ (runLoop env user_id fuel st).1.stepCount = st.stepCount + fuel := by
  intro fuel
  induction fuel with
  | zero => intro st; exact ⟨rfl, rfl⟩
  | succ n ih =>
    intro st
    simp only [runLoop]
    cases hres : (env.llm st.history).2 with
    | none =>
      dsimp only
      refine ⟨(ih _).1, ?_⟩
      rw [(ih (noToolSuccState st (env.llm st.history).1)).2]
      simp only [noToolSuccState]
      omega
    | some tc =>
      dsimp only
      rw [if_neg (hnf st.history tc hres)]
      refine ⟨(ih _).1, ?_⟩
      rw [(ih (toolSuccState env user_id st (env.llm st.history).1 tc)).2]
      simp only [toolSuccState]
      omega

/-- The loop invariant tying the raw observation list to the recorded steps:
exactly the tool-execution steps carry observations, in order. -/
theorem runLoop_obs (env : AgentEnv) (user_id : String) :
    ∀ (fuel : ℕ) (st : LoopState),
      st.observations = st.steps.filterMap (fun s => s.observation) →
      (runLoop env user_id fuel st).1.observations
        = (runLoop env user_id fuel st).1.steps.filterMap (fun s => s.observation) := by
  intro fuel
  induction fuel with
  | zero => intro st h; exact h
  | succ n ih =>
    intro st h
    simp only [runLoop]
    cases hres : (env.llm st.history).2 with
    | none =>
      apply ih
      simp [noToolSuccState, h, List.filterMap_append]
    | some tc =>
      dsimp only
      by_cases hfin : tc.name = "finish"
      · rw [if_pos hfin]
        simp [h, List.filterMap_append]
      · rw [if_neg hfin]
        apply ih
        simp [toolSuccState, h, List.filterMap_append]

/-- Every greeting produced by `_generate_direct_answer` is non-empty. -/
theorem generate_direct_answer_ne_empty (q : String) : generate_direct_answer q ≠ "" := by
  simp only [generate_direct_answer]
  repeat' split
  all_goals decide

/-- Claim C1 (amended): with no router short-circuit, if the LLM never returns
a `finish` tool call then `run` executes exactly `max_steps` loop iterations
(the default `max_steps` being 10), terminates, and returns the answer
synthesized by `_synthesize_final_answer` from the accumulated tool
observations; that answer is non-empty whenever no observations accumulated
(fixed fallback message) or the synthesizing LLM call returns non-empty text --
but the code cannot rule out an empty synthesized string in general (see the
counterexample). -/
theorem step_limit_reached_synthesizes (env : AgentEnv) (query user_id : String)
    (max_steps : ℕ)
    (hrouter : routerShortCircuit env query = false)
    (hms : 1 ≤ max_steps)
    (hnf : ∀ h tc, (env.llm h).2 = some tc → tc.name ≠ "finish") :
    DEFAULT_MAX_STEPS = 10
    ∧ (agent_run env query user_id max_steps).stepCount = max_steps
    ∧ (agent_run env query user_id max_steps).answer
        = .str (synthesize env query
            ((agent_run env query user_id max_steps).intermediate_steps.filterMap
              (fun s => s.observation)))
    ∧ ((agent_run env query user_id max_steps).intermediate_steps.filterMap
          (fun s => s.observation) = [] →
        (agent_run env query user_id max_steps).answer ≠ .str "")
    ∧ ((∀ h, (env.llm h).1 ≠ "") →
        (agent_run env query user_id max_steps).answer ≠ .str "") := by
  have hnone := runLoop_no_finish env user_id hnf max_steps
    (LoopState.mk (build_initial_history env.system_prompt query user_id) [] [] [] 0)
  have hobs := runLoop_obs env user_id max_steps
    (LoopState.mk (build_initial_history env.system_prompt query user_id) [] [] [] 0) rfl
  have hrun : agent_run env query user_id max_steps
      = AgentRunOut.mk
          (.str (synthesize env query
            (runLoop env user_id max_steps
              (LoopState.mk (build_initial_history env.system_prompt query user_id) [] [] [] 0)).1.observations))
          (runLoop env user_id max_steps
            (LoopState.mk (build_initial_history env.system_prompt query user_id) [] [] [] 0)).1.sources
          (runLoop env user_id max_steps
            (LoopState.mk (build_initial_history env.system_prompt query user_id) [] [] [] 0)).1.steps
          (runLoop env user_id max_steps
            (LoopState.mk (build_initial_history env.system_prompt query user_id) [] [] [] 0)).1.stepCount := by
    simp only [agent_run, hrouter]
    rw [hnone.1]
    simp
  refine ⟨rfl, ?_, ?_, ?_, ?_⟩
  · rw [hrun]
    simpa using hnone.2
  · rw [hrun]
    simp [hobs]
  · rw [hrun]
    intro hempty heq
    simp only at hempty
    rw [hobs, hempty] at heq
    simp only [synthesize, List.isEmpty_nil, if_pos] at heq
    have : noInfoMsg = "" := by injection heq
    exact absurd this (by decide)
  · intro hS
    rw [hrun]
    intro heq
    simp only at heq
    by_cases ho : (runLoop env user_id max_steps
        (LoopState.mk (build_initial_history env.system_prompt query user_id) [] [] [] 0)).1.observations.isEmpty
    · rw [synthesize, if_pos ho] at heq
      have : noInfoMsg = "" := by injection heq
      exact absurd this (by decide)
    · rw [synthesize, if_neg ho] at heq
      have := hS [ Msg.system synthSystemMsg,
        Msg.user ("Query: " ++ query ++ "\n\nInfo:\n" ++ String.intercalate "\n"
          (runLoop env user_id max_steps
            (LoopState.mk (build_initial_history env.system_prompt query user_id) [] [] [] 0)).1.observations) ]
      exact this (by injection heq)

/-- `envC1`'s LLM never calls `finish`. -/
theorem envC1_no_finish : ∀ h tc, (envC1.llm h).2 = some tc → tc.name ≠ "finish" := by
  intro h tc hres
  match h with
  | [] => simp [envC1] at hres
  | Msg.system s :: t =>
    simp only [envC1] at hres
    by_cases hs : s = synthSystemMsg
    · rw [if_pos hs] at hres
      simp at hres
    · rw [if_neg hs] at hres
      simp at hres
      rw [← hres]
      decide
  | Msg.user _ :: t => simp [envC1] at hres
  | Msg.assistant _ :: t => simp [envC1] at hres
  | Msg.assistantTool _ _ :: t => simp [envC1] at hres
  | Msg.toolMsg _ _ :: t => simp [envC1] at hres
  | Msg.modelFunctionCall _ _ :: t => simp [envC1] at hres
  | Msg.functionResult _ _ :: t => simp [envC1] at hres

/-- Witness for C1 (amended) at `max_steps = 3` with `envC1`. -/
theorem step_limit_reached_synthesizes_witness :
    (agent_run envC1 "q" "u" 3).stepCount = 3
    ∧ (agent_run envC1 "q" "u" 3).answer
        = .str (synthesize envC1 "q"
            ((agent_run envC1 "q" "u" 3).intermediate_steps.filterMap
              (fun s => s.observation))) :=
  ⟨(step_limit_reached_synthesizes envC1 "q" "u" 3 rfl (by decide) envC1_no_finish).2.1,
   (step_limit_reached_synthesizes envC1 "q" "u" 3 rfl (by decide) envC1_no_finish).2.2.1⟩

/-- Counterexample to C1 as stated: with `max_steps = 1` and an LLM that never
calls `finish` (see `envC1_no_finish`), the run does execute exactly one step,
but the synthesized answer is the *empty* string, because
`_synthesize_final_answer` returns the synthesis LLM call's text verbatim and
that text is empty. -/
theorem step_limit_empty_synthesis_cex :
    (agent_run envC1 "q" "u" 1).stepCount = 1
    ∧ (agent_run envC1 "q" "u" 1).answer = Json.str "" := ⟨rfl, rfl⟩

/-- Whenever the loop returns an answer, it is the `answer` argument of a
`finish` tool call that the LLM emitted at some history. -/
theorem runLoop_finish_source (env : AgentEnv) (user_id : String) :
    ∀ (fuel : ℕ) (st : LoopState) (a : Json),
      (runLoop env user_id fuel st).2 = some a →
      ∃ h tc, (env.llm h).2 = some tc ∧ tc.name = "finish"
        ∧ a = pyDictGet tc.arguments "answer" (.str "") := by
  intro fuel
  induction fuel with
  | zero => intro st a h; simp [runLoop] at h
  | succ n ih =>
    intro st a h
    simp only [runLoop] at h
    cases hres : (env.llm st.history).2 with
    | none =>
      rw [hres] at h
      exact ih _ _ h
    | some tc =>
      rw [hres] at h
      dsimp only at h
      by_cases hfin : tc.name = "finish"
      · rw [if_pos hfin] at h
        simp only at h
        exact ⟨st.history, tc, hres, hfin, by
          have := h
          injection this with h2
          exact h2.symm⟩
      · rw [if_neg hfin] at h
        exact ih _ _ h

/-- Claim C5 (amended): the returned answer is a real finish answer, a
synthesized fallback, or a direct greeting; it is a non-empty string provided
the LLM never supplies an empty one -- i.e. when every `finish` call it emits
carries a non-empty string `answer` argument and its response text is never
empty.  (Without those provisos the answer can be the empty string, see the
counterexample.) -/
theorem agent_answer_nonempty_amended (env : AgentEnv) (query user_id : String)
    (max_steps : ℕ)
    (hS : ∀ h, (env.llm h).1 ≠ "")
    (hF : ∀ h tc, (env.llm h).2 = some tc → tc.name = "finish" →
        ∃ s, pyDictGet tc.arguments "answer" (.str "") = .str s ∧ s ≠ "") :
    ∃ s, (agent_run env query user_id max_steps).answer = .str s ∧ s ≠ "" := by
  by_cases hrc : routerShortCircuit env query = true
  · refine ⟨generate_direct_answer query, ?_, generate_direct_answer_ne_empty query⟩
    simp [agent_run, hrc]
  · have hrc' : routerShortCircuit env query = false := by simpa using hrc
    cases hr : (runLoop env user_id max_steps
        (LoopState.mk (build_initial_history env.system_prompt query user_id) [] [] [] 0)).2 with
    | none =>
      refine ⟨synthesize env query (runLoop env user_id max_steps
        (LoopState.mk (build_initial_history env.system_prompt query user_id) [] [] [] 0)).1.observations, ?_, ?_⟩
      · simp only [agent_run, hrc']
        rw [hr]
        simp
      · by_cases ho : (runLoop env user_id max_steps
            (LoopState.mk (build_initial_history env.system_prompt query user_id) [] [] [] 0)).1.observations.isEmpty
        · rw [synthesize, if_pos ho]
          decide
        · rw [synthesize, if_neg ho]
          exact hS _
    | some a =>
      obtain ⟨hh, tc, h1, h2, h3⟩ := runLoop_finish_source env user_id max_steps _ a hr
      obtain ⟨s, hs, hne⟩ := hF hh tc h1 h2
      refine ⟨s, ?_, hne⟩
      have ha : a = .str s := h3.trans hs
      simp only [agent_run, hrc']
      rw [hr, ha]
      simp

/-- Witness for C5 (amended) with `envC5w`. -/
theorem agent_answer_nonempty_amended_witness :
    ∃ s, (agent_run envC5w "q" "u" 10).answer = .str s ∧ s ≠ "" :=
  agent_answer_nonempty_amended envC5w "q" "u" 10
    (fun _ => by
      show ("thinking" : String) ≠ ""
      decide)
    (fun _ tc heq _ => ⟨"done", by
      have h2 : ToolCallV.mk "finish" [("answer", .str "done")] "1" = tc := by
        simpa [envC5w] using heq
      rw [← h2]
      rfl, by decide⟩)

/-- Counterexample to C5 as stated: the LLM finishes with `{"answer": ""}` and
`run` returns that empty string verbatim -- the agent *can* return an empty
answer. -/
theorem agent_empty_finish_answer_cex :
    (agent_run envC5 "q" "u" 10).answer = Json.str "" := rfl

/-- The `documentId` assigned by one `sources.append` call. -/
theorem mkSource_documentId (action : String) (start i : ℕ) (d : Args) (s : Source)
    (h : mkSource action start i d = some s) : s.documentId = toString (start + i) := by
  unfold mkSource at h
  cases hp : pySlice200 (pyOr (pyDictGet d "content" .null) (pyDictGet d "text" (.str ""))) with
  | none => rw [hp] at h; exact absurd h (by simp)
  | some snip =>
    rw [hp] at h
    injection h with h1
    exact h1 ▸ rfl

/-- When every item of the enumerated list is a dict, the appended entries are
numbered `start + j`, `start + j + 1`, ... in order. -/
theorem extractItems_ids (action : String) (start : ℕ) (items : List Json)
    (hobj : ∀ x ∈ items, ∃ d, x = Json.obj d) :
    ∀ (j k : ℕ) (s : Source),
      (extractItems action start (items.enumFrom j))[k]? = some s →
      s.documentId = toString (start + j + k) := by
  induction items with
  | nil => intro j k s h; simp [extractItems, List.enumFrom_nil] at h
  | cons x xs ih =>
    intro j k s h
    obtain ⟨d, rfl⟩ := hobj x (List.mem_cons_self x xs)
    have hxs : ∀ y ∈ xs, ∃ d, y = Json.obj d :=
      fun y hy => hobj y (List.mem_cons_of_mem _ hy)
    rw [List.enumFrom_cons] at h
    cases hmk : mkSource action start j d with
    | none =>
      rw [extractItems, hmk] at h
      simp at h
    | some s0 =>
      rw [extractItems, hmk] at h
      cases k with
      | zero =>
        rw [List.getElem?_cons_zero] at h
        injection h with h1
        rw [← h1]
        exact mkSource_documentId action start j d s0 hmk
      | succ k' =>
        rw [List.getElem?_cons_succ] at h
        have := ih hxs (j+1) k' s h
        rw [this]
        exact congrArg toString (by omega)

/-- One `_extract_sources` call preserves consecutive numbering, provided every
item of a successfully parsed observation list is a dict. -/
theorem extract_sources_preserves (parse : String → Option Json) (action obs : String)
    (ss : List Source)
    (hitems : ∀ items, parse obs = some (.arr items) → ∀ x ∈ items, ∃ d, x = Json.obj d)
    (hss : consecutiveIds ss) : consecutiveIds (extract_sources parse action obs ss) := by
  unfold extract_sources
  by_cases hact : (action = "web_search" ∨ action = "document_search")
  · rw [if_pos hact]
    cases hp : parse obs with
    | none => exact hss
    | some j =>
      cases j with
      | arr items =>
        intro k h
        by_cases hk : k < ss.length
        · rw [List.get_eq_getElem, List.getElem_append_left hk]
          exact hss k hk
        · have hk' : ss.length ≤ k := Nat.le_of_not_lt hk
          rw [List.get_eq_getElem, List.getElem_append_right hk']
          have hlen : k - ss.length
              < (extractItems action (ss.length + 1) (items.enumFrom 0)).length := by
            have h2 := h
            simp only [List.length_append, List.enum] at h2
            omega
          have hsome : (extractItems action (ss.length + 1) (items.enumFrom 0))[k - ss.length]?
              = some ((extractItems action (ss.length + 1) (items.enumFrom 0))[k - ss.length]) :=
            List.getElem?_eq_getElem hlen
          have hid := extractItems_ids action (ss.length + 1) items (hitems items hp)
            0 (k - ss.length) _ hsome
          simp only [List.enum]
          exact hid.trans (congrArg toString (by omega))
      | null => exact hss
      | bool b => exact hss
      | num n => exact hss
      | str s => exact hss
      | obj fields => exact hss
  · rw [if_neg hact]
    exact hss

/-- Claim C9 (amended): throughout every run, only `document_search` /
`web_search` observations add citation entries, entries are appended in
insertion order, and -- provided every item of each parsed observation list is
a dict -- the n-th entry ever appended carries `documentId = str(n)`
(consecutive 1-based numbering).  A non-dict list item is skipped but still
consumes an index, breaking consecutiveness (see the counterexample), so the
dict-only proviso is necessary. -/
theorem citation_numbering_amended (parse : String → Option Json)
    (pairs : List (String × String))
    (hdicts : ∀ a o, (a, o) ∈ pairs → ∀ items, parse o = some (.arr items) →
        ∀ x ∈ items, ∃ d, x = Json.obj d) :
    (∀ action obs ss, ¬(action = "web_search" ∨ action = "document_search") →
        extract_sources parse action obs ss = ss)
    ∧ consecutiveIds (pairs.foldl (fun ss p => extract_sources parse p.1 p.2 ss) []) := by
  constructor
  · intro action obs ss h
    simp [extract_sources, h]
  · have main : ∀ (ps : List (String × String)),
        (∀ a o, (a, o) ∈ ps → ∀ items, parse o = some (.arr items) →
          ∀ x ∈ items, ∃ d, x = Json.obj d) →
        ∀ ss, consecutiveIds ss →
        consecutiveIds (ps.foldl (fun ss p => extract_sources parse p.1 p.2 ss) ss) := by
      intro ps
      induction ps with
      | nil => intro _ ss hss; exact hss
      | cons p rest ih =>
        intro hd ss hss
        simp only [List.foldl]
        refine ih (fun a o hm items hp => hd a o (List.mem_cons_of_mem _ hm) items hp) _ ?_
        refine extract_sources_preserves parse p.1 p.2 ss ?_ hss
        intro items hp
        exact hd p.1 p.2 (by simp) items hp
    exact main pairs hdicts [] (fun k h => absurd h (by simp))

/-- Witness for C9 (amended): two search observations, each parsing to a
single-dict list, produce sources numbered "1", "2"; a non-search action leaves
the list unchanged. -/
theorem citation_numbering_amended_witness :
    extract_sources parseW9 "calculator" "obs" [] = []
    ∧ consecutiveIds ([("document_search", "obs"), ("web_search", "obs")].foldl
        (fun ss p => extract_sources parseW9 p.1 p.2 ss) []) := by
  have hd : ∀ a o, (a, o) ∈ [("document_search", "obs"), ("web_search", "obs")] →
      ∀ items, parseW9 o = some (.arr items) → ∀ x ∈ items, ∃ d, x = Json.obj d := by
    intro a o _ items hp x hx
    have : Json.arr [Json.obj []] = Json.arr items := by
      simpa [parseW9] using hp
    injection this with h1
    rw [← h1] at hx
    simp at hx
    exact ⟨[], hx⟩
  exact ⟨(citation_numbering_amended parseW9
      [("document_search", "obs"), ("web_search", "obs")] hd).1
      "calculator" "obs" [] (by simp),
    (citation_numbering_amended parseW9
      [("document_search", "obs"), ("web_search", "obs")] hd).2⟩

/-- Counterexample to C9 as stated: for the observation `[1, \x7b\x7d]` (a
non-dict item before a dict item) the single appended entry is numbered "2",
not "1" -- the enumeration index of a skipped non-dict item still advances the
numbering, leaving a gap. -/
theorem citation_numbering_gap_cex :
    ((extract_sources parseC9 "document_search" "[1, \x7b\x7d]" []).map
        (fun s => s.documentId) = ["2"])
    ∧ ¬ consecutiveIds (extract_sources parseC9 "document_search" "[1, \x7b\x7d]" []) := by
  constructor
  · rfl
  · intro hcon
    have h0 : (0:ℕ) < (extract_sources parseC9 "document_search" "[1, \x7b\x7d]" []).length := by
      decide
    have h1 := hcon 0 h0
    have h2 : ((extract_sources parseC9 "document_search" "[1, \x7b\x7d]" []).get
        ⟨0, h0⟩).documentId = "2" := rfl
    rw [h2] at h1
    exact absurd h1 (by decide)

/-- The post-processing of `retrieve` keeps the chunks a function of the
retrieved base chunks alone. -/
theorem retrieveTail_chunks (env : RetrievalEnv) (settings : RetrievalSettings)
    (query : String) (rerank : Bool) (rerank_top_n : Option ℕ) (base : VSResult) :
    (retrieveTail env settings query rerank rerank_top_n base).chunks
      = if base.chunks.isEmpty then base.chunks
        else if rerank && settings.rerank_enabled then
          retrievalRerank env query base.chunks (effectiveTopN rerank_top_n settings)
        else base.chunks := by
  unfold retrieveTail
  split
  · rfl
  · split <;> rfl

/-- On a non-truthy cache read (`None` or the falsy `[]`), `vector_search` runs
the miss path. -/
theorem vector_search_on_miss (env : RetrievalEnv) (cache : CacheState) (now : ℕ)
    (query user_id : String) (document_id : Option String) (k : ℕ)
    (hmiss : cache_get cache now (chunks_cache_key (cacheScope document_id) query) = none ∨
        cache_get cache now (chunks_cache_key (cacheScope document_id) query) = some []) :
    vector_search env cache now query user_id document_id k
      = vector_search_miss env cache now query user_id document_id k := by
  cases hmiss with
  | inl h =>
    simp only [vector_search]
    rw [h]
  | inr h =>
    simp only [vector_search]
    rw [h]
    rfl

/-- Claim C6: `vector_search` caches its result under the key built from
`(document_id or "all_docs", query)` with a TTL of exactly 3600 seconds; on a
cache hit (stored, unexpired, non-empty list -- Python truthiness) it returns
the cached list unchanged, performing no embedding call and no vector-store
query; and hybrid retrieval neither reads nor writes this cache (its outcome is
cache-independent and the cache is returned unchanged). -/
theorem vector_search_cache_contract (env : RetrievalEnv) (settings : RetrievalSettings)
    (cache : CacheState) (now : ℕ) (query user_id : String)
    (document_id : Option String) (k top_k : ℕ) (rerank : Bool)
    (rerank_top_n : Option ℕ) :
    CACHE_TTL = 3600
    ∧ (∀ l, cache_get cache now (chunks_cache_key (cacheScope document_id) query) = some l →
        l ≠ [] →
        vector_search env cache now query user_id document_id k
          = VSResult.mk l cache 0 [] false)
    ∧ ((cache_get cache now (chunks_cache_key (cacheScope document_id) query) = none ∨
        cache_get cache now (chunks_cache_key (cacheScope document_id) query) = some []) →
        (vector_search env cache now query user_id document_id k).cache
          = cache_set cache now (chunks_cache_key (cacheScope document_id) query)
              (vector_search env cache now query user_id document_id k).chunks CACHE_TTL
        ∧ (vector_search env cache now query user_id document_id k).embedCalls = 1)
    ∧ (∀ (d : String) (cache' : CacheState), d ≠ "" →
        (retrieve env settings cache now query user_id (some d) .hybrid top_k rerank
          rerank_top_n).cache = cache
        ∧ (retrieve env settings cache now query user_id (some d) .hybrid top_k rerank
            rerank_top_n).chunks
          = (retrieve env settings cache' now query user_id (some d) .hybrid top_k rerank
              rerank_top_n).chunks) := by
  refine ⟨rfl, ?_, ?_, ?_⟩
  · intro l hget hne
    simp only [vector_search]
    rw [hget]
    dsimp only
    rw [if_neg (by simpa [List.isEmpty_iff] using hne)]
  · intro hmiss
    rw [vector_search_on_miss env cache now query user_id document_id k hmiss]
    exact ⟨rfl, rfl⟩
  · intro d cache' hd
    have hcond : ((RetrievalMode.hybrid == RetrievalMode.hybrid)
        && pyTruthyOptStr (some d)) = true := by
      simp [pyTruthyOptStr, hd]
    have hsel : ∀ c : CacheState,
        retrieve env settings c now query user_id (some d) .hybrid top_k rerank rerank_top_n
          = retrieveTail env settings query rerank rerank_top_n
              (VSResult.mk (hybrid_search env query user_id d top_k) c 1 [] true) := by
      intro c
      simp only [retrieve]
      rw [if_pos hcond]
      rfl
    constructor
    · rw [hsel cache, retrieveTail_cache]
    · rw [hsel cache, hsel cache', retrieveTail_chunks, retrieveTail_chunks]

/-- Witness for C6: a concrete cache hit returns the cached list with no
embedding call and no store query, and a concrete hybrid call leaves a cache
unchanged. -/
theorem vector_search_cache_contract_witness :
    vector_search wRetEnv wCache 5 "q" "u" (some "d") 3
      = VSResult.mk [wChunk] wCache 0 [] false
    ∧ (retrieve wRetEnv ⟨false, 5⟩ wCache 5 "q" "u" (some "d") .hybrid 3 true none).cache
      = wCache :=
  ⟨(vector_search_cache_contract wRetEnv ⟨false, 5⟩ wCache 5 "q" "u" (some "d") 3 3
      true none).2.1 [wChunk] rfl (by decide),
   ((vector_search_cache_contract wRetEnv ⟨false, 5⟩ wCache 5 "q" "u" (some "d") 3 3
      true none).2.2.2 "d" wCache (by decide)).1⟩

/-- Claim C10 (amended): the cache key contains only the document scope and the
query, not the user id.  If user A's call misses and stores a *non-empty*
result, then any user B's call with the same query and document within the TTL
returns A's cached chunks unchanged, with no embedding call and no store query
-- so B's user filter is never applied and the output does not depend on the
caller's identity.  (When A's result is empty, the stored `[]` is falsy and B
re-queries with B's own filter, see the counterexample.) -/
theorem cache_ignores_user_id_amended (env : RetrievalEnv) (cache : CacheState)
    (now1 now2 : ℕ) (query d userA userB : String) (k : ℕ)
    (hmiss : cache_get cache now1 (chunks_cache_key (cacheScope (some d)) query) = none ∨
        cache_get cache now1 (chunks_cache_key (cacheScope (some d)) query) = some [])
    (hne : (vector_search env cache now1 query userA (some d) k).chunks ≠ [])
    (htime : now2 < now1 + CACHE_TTL) :
    vector_search env (vector_search env cache now1 query userA (some d) k).cache
        now2 query userB (some d) k
      = VSResult.mk (vector_search env cache now1 query userA (some d) k).chunks
          (vector_search env cache now1 query userA (some d) k).cache 0 [] false := by
  have hv1 := vector_search_on_miss env cache now1 query userA (some d) k hmiss
  rw [hv1] at hne ⊢
  have hget2 : cache_get (vector_search_miss env cache now1 query userA (some d) k).cache
      now2 (chunks_cache_key (cacheScope (some d)) query)
      = some (vector_search_miss env cache now1 query userA (some d) k).chunks := by
    simp only [vector_search_miss, cache_set, cache_get]
    rw [List.find?]
    simp [htime]
  simp only [vector_search]
  rw [hget2]
  dsimp only
  rw [if_neg (by simpa [List.isEmpty_iff] using hne)]

/-- Witness for C10 (amended) at concrete inputs. -/
theorem cache_ignores_user_id_amended_witness :
    vector_search wRetEnvA (vector_search wRetEnvA [] 0 "q" "A" (some "d") 1).cache
        1 "q" "B" (some "d") 1
      = VSResult.mk (vector_search wRetEnvA [] 0 "q" "A" (some "d") 1).chunks
          (vector_search wRetEnvA [] 0 "q" "A" (some "d") 1).cache 0 [] false :=
  cache_ignores_user_id_amended wRetEnvA [] 0 1 "q" "d" "A" "B" 1
    (Or.inl rfl) (by decide) (by decide)

/-- Counterexample to C10 as stated: user A's call stores the empty list under
the key (the cache *is* populated), yet user B's call within the TTL treats the
falsy `[]` as a miss, runs the store query with B's own user filter, and
returns a different result -- the claim's "returns A's cached chunks without
the user_id filter being applied" fails for an empty cached result. -/
theorem cache_user_leak_empty_cex :
    cache_get (vector_search envC10 [] 0 "q" "A" (some "d") 1).cache 1
        (chunks_cache_key (cacheScope (some "d")) "q")
      = some []
    ∧ (vector_search envC10 (vector_search envC10 [] 0 "q" "A" (some "d") 1).cache
        1 "q" "B" (some "d") 1).chunks
      ≠ (vector_search envC10 [] 0 "q" "A" (some "d") 1).chunks
    ∧ (vector_search envC10 (vector_search envC10 [] 0 "q" "A" (some "d") 1).cache
        1 "q" "B" (some "d") 1).storeQueries
      = [WhereClause.mk "B" (some "d")] := by
  refine ⟨rfl, ?_, rfl⟩
  decide

/-- The sequential in-place boosts of the scoring loop equal the product of the
spec's boost factors. -/
theorem rb_group_score_eq_spec (query sec : String) (cs : List Chunk) :
    rb_group_score query sec cs = specGroupScore query sec cs := by
  unfold rb_group_score specGroupScore meanDistance coreBoost tableBoost
  by_cases h1 : (CORE_SECTIONS.any (fun core => containsSub sec core)) = true
  <;> by_cases h2 : (queryMentionsTable query
      && cs.any (fun c => c.metadata.element_type = some "table")) = true
  <;> simp [h1, h2]
  <;> ring

/-- `insertStable` commutes with mapping, when the precedence relations agree
across the map. -/
theorem insertStable_map {α β : Type} (f : α → β) (p : α → α → Bool)
    (q : β → β → Bool) (hpq : ∀ a b, q (f a) (f b) = p a b) (x : α) (l : List α) :
    insertStable q (f x) (l.map f) = (insertStable p x l).map f := by
  induction l with
  | nil => rfl
  | cons y ys ih =>
    simp only [List.map_cons, insertStable, hpq]
    by_cases h : p y x
    · simp [h, ih]
    · simp [h]

/-- `pySort` commutes with mapping, when the precedence relations agree across
the map. -/
theorem pySort_map {α β : Type} (f : α → β) (p : α → α → Bool) (q : β → β → Bool)
    (hpq : ∀ a b, q (f a) (f b) = p a b) (l : List α) :
    pySort q (l.map f) = (pySort p l).map f := by
  unfold pySort
  induction l with
  | nil => rfl
  | cons y ys ih =>
    simp only [List.map_cons, List.foldr_cons]
    rw [ih, insertStable_map f p q hpq]

/-- Membership is invariant under `insertStable`. -/
theorem mem_insertStable {α : Type} (p : α → α → Bool) (x y : α) (l : List α) :
    y ∈ insertStable p x l ↔ y = x ∨ y ∈ l := by
  induction l with
  | nil => simp [insertStable]
  | cons z zs ih =>
    simp only [insertStable]
    by_cases h : p z x = true
    · rw [if_pos h]
      simp only [List.mem_cons, ih] <;> tauto
    · rw [if_neg h]
      simp only [List.mem_cons] <;> tauto

/-- `pySort` permutes its input: membership is unchanged. -/
theorem mem_pySort {α : Type} (p : α → α → Bool) (y : α) (l : List α) :
    y ∈ pySort p l ↔ y ∈ l := by
  unfold pySort
  induction l with
  | nil => simp
  | cons z zs ih =>
    simp [List.foldr_cons, mem_insertStable, ih]

/-- The key list after `addToGroups`: unchanged for a known key, the new key
appended otherwise. -/
theorem keys_addToGroups (groups : List (String × List Chunk)) (s : String) (c : Chunk) :
    (addToGroups groups s c).map Prod.fst
      = if s ∈ groups.map Prod.fst then groups.map Prod.fst
        else groups.map Prod.fst ++ [s] := by
  induction groups with
  | nil => simp [addToGroups]
  | cons g gs ih =>
    obtain ⟨k, v⟩ := g
    simp only [addToGroups]
    by_cases h : k = s
    · subst h
      simp
    · rw [if_neg h]
      simp only [List.map_cons]
      rw [ih]
      have hmem : s ∈ k :: gs.map Prod.fst ↔ s ∈ gs.map Prod.fst := by
        simp [List.mem_cons, Ne.symm h]
      by_cases h2 : s ∈ gs.map Prod.fst
      · rw [if_pos h2, if_pos (hmem.mpr h2)]
      · rw [if_neg h2, if_neg (fun hx => h2 (hmem.mp hx))]
        simp

/-- `addToGroups` preserves distinctness of the group keys. -/
theorem nodup_keys_addToGroups (groups : List (String × List Chunk)) (s : String)
    (c : Chunk) (h : (groups.map Prod.fst).Nodup) :
    ((addToGroups groups s c).map Prod.fst).Nodup := by
  rw [keys_addToGroups]
  by_cases h2 : s ∈ groups.map Prod.fst
  · rwa [if_pos h2]
  · rw [if_neg h2]
    simp only [List.nodup_append, List.nodup_cons, List.nodup_nil]
    refine ⟨h, ⟨by simp, by simp⟩, ?_⟩
    intro a ha
    simp only [List.mem_singleton]
    intro he
    exact h2 (he ▸ ha)

/-- The groups built by `sectionGroups` have pairwise-distinct keys. -/
theorem nodup_keys_sectionGroups (chunks : List Chunk) :
    ((sectionGroups chunks).map Prod.fst).Nodup := by
  unfold sectionGroups
  have main : ∀ (l : List Chunk) (gs : List (String × List Chunk)),
      (gs.map Prod.fst).Nodup →
      ((l.foldl (fun gs c => addToGroups gs (c.metadata.section_path.getD "unknown") c)
        gs).map Prod.fst).Nodup := by
    intro l
    induction l with
    | nil => intro gs h; exact h
    | cons c cs ih =>
      intro gs h
      exact ih _ (nodup_keys_addToGroups gs _ c h)
  exact main chunks [] (by simp)

/-- In a list with distinct keys, `find?` by a member's key returns that
member. -/
theorem find?_key_of_mem {l : List (String × List Chunk)} {g : String × List Chunk}
    (hnd : (l.map Prod.fst).Nodup) (hmem : g ∈ l) :
    l.find? (fun p => p.1 = g.1) = some g := by
  induction l with
  | nil => simp at hmem
  | cons a as ih =>
    have hnd2 : a.1 ∉ as.map Prod.fst ∧ (as.map Prod.fst).Nodup := by
      rw [List.map_cons, List.nodup_cons] at hnd
      exact hnd
    rcases List.mem_cons.mp hmem with rfl | hmem2
    · exact List.find?_cons_of_pos _ (by simp)
    · have h1 : a.1 ≠ g.1 := fun he => hnd2.1 (he ▸ List.mem_map_of_mem Prod.fst hmem2)
      rw [List.find?_cons_of_neg _ (by simp [h1])]
      exact ih hnd2.2 hmem2

/-- Sorting `(key, score)` pairs by second component equals sorting the
underlying groups by score and then pairing. -/
theorem pySort_scored (score : String × List Chunk → ℚ)
    (l : List (String × List Chunk)) :
    pySort (fun a b : String × ℚ => decide (a.2 < b.2))
        (l.map (fun g => (g.1, score g)))
      = (pySort (fun a b => decide (score a < score b)) l).map
          (fun g => (g.1, score g)) :=
  pySort_map (fun g => (g.1, score g))
    (fun a b => decide (score a < score b))
    (fun a b => decide (a.2 < b.2)) (fun a b => rfl) l

/-- Claim C7: the metadata-aware rule-based reranking equals, for every query,
chunk list and `top_n`, the spec-side description: group chunks by section
path, score each group as mean vector distance times a 0.7 core-section boost
times a 0.8 table boost (applied when the query mentions tables and the group
contains a table-typed chunk), order the groups by score ascending (stably),
order chunks within a group by `chunk_index` ascending (stably), attach
`rerank_score = 1 - score`, and return the first `top_n` chunks. -/
theorem rerank_metadata_matches_spec (query : String) (chunks : List Chunk)
    (top_n : ℕ) :
    rerank_chunks_with_metadata query chunks top_n
      = rerankMetadataSpec query chunks top_n := by
  by_cases hnil : chunks.isEmpty = true
  · have h0 : chunks = [] := List.isEmpty_iff.mp hnil
    subst h0
    simp [rerank_chunks_with_metadata, rerankMetadataSpec, sectionGroups, pySort]
  · have hnil2 : chunks.isEmpty = false := by simpa using hnil
    simp only [rerank_chunks_with_metadata, rerankMetadataSpec, hnil2,
      Bool.false_eq_true, if_false, rb_group_score_eq_spec]
    rw [pySort_scored (fun g => specGroupScore query g.1 g.2) (sectionGroups chunks),
      List.flatMap_map]
    refine congrArg (List.take top_n) ?_
    apply List.flatMap_congr
    intro g hg
    have hgmem : g ∈ sectionGroups chunks :=
      (mem_pySort _ g (sectionGroups chunks)).mp hg
    have hfind := find?_key_of_mem (nodup_keys_sectionGroups chunks) hgmem
    simp only [hfind]
    rfl

end Prism
